import Mathlib

/-!
# Verification of the CTOS execution core against its specification

Shallow embedding of the order-slicing, placement, amendment, cancellation and
price-chasing logic of the CTOS repository:

* `src/ctos/core/runtime/ExecutionEngine.py` — `place_incremental_orders`
  (the Order Slicer / Incremental Placer, spec §4.4) and
  `_order_tracking_logic` (the Price-Chasing Tracker, spec §4.5);
* `src/ctos/drivers/binance/driver_ccxt.py` — `amend_order`, `cancel_all`,
  `place_order`, `_extract_limits_from_market`;
* `src/ctos/drivers/aster/aster.py` — `AsterClient.place_market_order`.

Numbers are modelled as exact rationals (`ℚ`).  Venue I/O (quote fetch,
limits fetch, order placement, cancellation, status lookup) is modelled by
explicit oracle inputs; the requests a function issues to the venue are
returned as an explicit list so that theorems can talk about what was sent.
-/

/-- Modelled from the spec: `round_like` lives in `ctos/drivers/okx/util.py`,
which is absent from the sources (only its importers are present).  Spec §8
Scenario A fixes its behaviour on the step grid: `0.00075 → 0`,
`0.0009375 → 0`, `0.00117 → 0.001` — truncation down to the nearest multiple
of the step (round-half-to-nearest would give `0.001` in the first two cases,
contradicting the scenario).  All call sites use nonnegative arguments. -/
def round_like (step x : ℚ) : ℚ :=
  (⌊x / step⌋ : ℚ) * step

/-- Modelled from the spec: `align_decimal_places` also lives in the missing
`ctos/drivers/okx/util.py`.  Per its call sites it rounds its second argument
onto the decimal grid of its first; we parameterise by the grid exponent `n`
(the number of decimal places of the reference value) and round half-to-nearest
per spec §4.2. -/
def alignDec (n : ℕ) (x : ℚ) : ℚ :=
  (round (x * 10 ^ n) : ℚ) / 10 ^ n

/-- Order side, as normalised by every driver (`buy`/`sell`). -/
inductive Side where
  | buy
  | sell
deriving DecidableEq

/-- Order type after driver normalisation (`limit` vs everything-else→`market`,
see `BinanceDriver.place_order`). -/
inductive OrdType where
  | market
  | limit
deriving DecidableEq

/-- One placement request as handed to the venue driver's `place_order`:
side, type, amount and (for limit orders) the limit price. -/
structure PlaceReq where
  side : Side
  typ : OrdType
  amount : ℚ
  price : Option ℚ
deriving DecidableEq

/-- The per-symbol limit record built by
`BinanceDriver._extract_limits_from_market` and consumed by
`place_incremental_orders` via `exchange_limits`. -/
structure ExLimits where
  size_precision : ℚ
  price_precision : ℚ
  min_order_size : ℚ
  contract_value : ℚ
deriving DecidableEq

/-- Python truthiness of an optional string (`if order_id:`). -/
def truthyStr : Option String → Bool
  | some s => !s.isEmpty
  | none => false

/-- Python truthiness of an optional number (`if price:`). -/
def truthyQ : Option ℚ → Bool
  | some q => decide (q ≠ 0)
  | none => false

/-!
## Order Slicer (`place_incremental_orders`, ExecutionEngine.py lines 262-274)

The notional-to-size loop:

```
order_amount = round_like(min_order_size, usdt_amount / base_order_money)
add_amount_times = 1
while order_amount == 0 and add_amount_times < 4:
    add_amount_times += 1
    order_amount = round_like(min_order_size,
                              usdt_amount * pow(1.25, add_amount_times) / base_order_money)
```

The loop body runs at most three times (`add_amount_times` goes 2, 3, 4), so we
embed it with structural fuel `3` while keeping the original `add < 4` guard.
-/

/-- The escalation loop's final `order_amount`, with `fuel` bounding the
remaining iterations and `add` mirroring `add_amount_times`. -/
def slice_amt (minSz base usdt : ℚ) : ℕ → ℕ → ℚ → ℚ
  | 0, _, amt => amt
  | fuel + 1, add, amt =>
    if amt = 0 ∧ add < 4 then
      slice_amt minSz base usdt fuel (add + 1)
        (round_like minSz (usdt * (5 / 4) ^ (add + 1) / base))
    else amt

/-- The effective notionals attempted by the escalation loop (after the
initial attempt), in order. -/
def slice_tr (minSz base usdt : ℚ) : ℕ → ℕ → ℚ → List ℚ
  | 0, _, _ => []
  | fuel + 1, add, amt =>
    if amt = 0 ∧ add < 4 then
      usdt * (5 / 4) ^ (add + 1) ::
        slice_tr minSz base usdt fuel (add + 1)
          (round_like minSz (usdt * (5 / 4) ^ (add + 1) / base))
    else []

/-- Final order size computed by the slicer (0 means the
`订单金额过小，无法下单` = `NotionalTooSmall` failure). -/
def order_amount (minSz base usdt : ℚ) : ℚ :=
  slice_amt minSz base usdt 3 1 (round_like minSz (usdt / base))

/-- All effective notionals attempted by the slicer, first the raw request,
then every escalated retry actually performed. -/
def slice_trace (minSz base usdt : ℚ) : List ℚ :=
  usdt :: slice_tr minSz base usdt 3 1 (round_like minSz (usdt / base))

/-- `x` is an exact integer multiple of `step`. -/
def IsStepMultiple (x step : ℚ) : Prop :=
  ∃ k : ℤ, x = k * step

/-!
## The whole of `place_incremental_orders` (ExecutionEngine.py lines 236-330)

The driver is an oracle: limits lookup, live-quote lookup and order placement.
`none` in `limits`/`quote` models the corresponding fetch failing.  The second
component of the result collects every `place_order` request issued.
-/

/-- Venue-driver oracle for one `place_incremental_orders` call. -/
structure DriverIn where
  limits : Option ExLimits
  quote : Option ℚ
  place : PlaceReq → Option String × Option String

/-- The errors `place_incremental_orders` can hand back (second component of
its returned pair). -/
inductive EngineErr where
  | limitsErr
  | priceFetchFailed
  | notionalTooSmall
deriving DecidableEq

/-- Observable outcome of a `place_incremental_orders` call: a normal
`(orders, err)` return, or the uncaught `NameError` raised when
`order_amount` is negative and the failure print references the unassigned
`err_msg`. -/
inductive EngineOutcome where
  | ret (orders : Option (List String)) (err : Option EngineErr)
  | uncaughtNameError
deriving DecidableEq

/-- The limit price computed in the soft branch.  NOTE: by this point the
local variable `price` has been reassigned to the live quote
(`price = exchange.get_price_now(coin)`, line 257), so the `if price:` test
compares the *quote* against zero, and the `* 0.9999` / `* 1.0001` offsets are
reachable only when the quote itself is zero. -/
def soft_limit_price (pp quote : ℚ) (direction : Side) : ℚ :=
  if quote ≠ 0 then round_like pp quote
  else round_like pp (quote * (if direction = Side.buy then 9999 / 10000 else 10001 / 10000))

/-- The limit order request issued in the soft branch. -/
def soft_req (lim : ExLimits) (quote : ℚ) (direction : Side) (usdt : ℚ) : PlaceReq :=
  ⟨direction, OrdType.limit,
   order_amount lim.min_order_size (quote * lim.contract_value) usdt,
   some (soft_limit_price lim.price_precision quote direction)⟩

/-- The soft-order id list accumulated from one placement result
(`if order_id: soft_orders_to_focus.append(order_id)`). -/
def soft_list (r : Option String × Option String) : List String :=
  match r.1 with
  | some oid => if oid.isEmpty then [] else [oid]
  | none => []

/-- `ExecutionEngine.place_incremental_orders(usdt_amount, coin, direction,
soft, price)`.  Returns the `(orders, err)` pair plus the list of
`place_order` requests issued to the driver. -/
def place_incremental_orders (drv : DriverIn) (usdt : ℚ) (direction : Side)
    (soft0 : Bool) (price0 : Option ℚ) : EngineOutcome × List PlaceReq :=
  match drv.limits with
  | none => (EngineOutcome.ret none (some EngineErr.limitsErr), [])
  | some lim =>
    match drv.quote with
    | none => (EngineOutcome.ret none (some EngineErr.priceFetchFailed), [])
    | some quote =>
      if order_amount lim.min_order_size (quote * lim.contract_value) usdt = 0 then
        (EngineOutcome.ret none (some EngineErr.notionalTooSmall), [])
      else if order_amount lim.min_order_size (quote * lim.contract_value) usdt < 0 then
        (EngineOutcome.uncaughtNameError, [])
      else if soft0 || truthyQ price0 then
        (EngineOutcome.ret (some (soft_list (drv.place (soft_req lim quote direction usdt)))) none,
         [soft_req lim quote direction usdt])
      else
        (EngineOutcome.ret (some []) none,
         [⟨direction, OrdType.market,
           order_amount lim.min_order_size (quote * lim.contract_value) usdt, none⟩])

/-!
## Claim C1 — escalation schedule of the slicer
-/

/-- C1 counterexample: on Scenario A's inputs (`minOrderSize = sizeStep
= 0.001`, quote `2000`, `contractMultiplier = 1`, notional `1.5`) the slicer's
attempted effective notionals are `[1.5, 2.34375]`: the claimed second
effective notional `1.5 × 1.25 = 1.875` is never attempted (the first retry
already multiplies by `1.25² = 1.5625`), and the call succeeds on the first
extra attempt with size `0.001`. -/
theorem slicer_skips_claimed_first_escalation :
    slice_trace (1 / 1000) 2000 (3 / 2) = [3 / 2, 75 / 32]
    ∧ (3 : ℚ) / 2 * (5 / 4) ∉ slice_trace (1 / 1000) 2000 (3 / 2)
    ∧ (75 : ℚ) / 32 ≠ 3 / 2 * (5 / 4)
    ∧ order_amount (1 / 1000) 2000 (3 / 2) = 1 / 1000 := by
  have htr : slice_trace (1 / 1000) 2000 (3 / 2) = [3 / 2, 75 / 32] := by
    norm_num [slice_trace, slice_tr, round_like]
  refine ⟨htr, ?_, by norm_num, by norm_num [order_amount, slice_amt, round_like]⟩
  rw [htr]
  norm_num

/-- C1 (amended): when the first rounding yields size 0 the slicer inflates
the effective notional to `notional × 1.25^(k+1)` at the `k`-th extra attempt
(so the ratio between consecutive extra attempts is 1.25, but the first jump
is already `1.25² = 1.5625`), making at most 3 extra attempts; with
`contractMultiplier = 1`, `sizeStep = minOrderSize = 0.001`, quote `2000` and
notional `1.5`, the successive effective notionals are `1.5`, then
`1.5 × 1.5625 = 2.34375`, and the call succeeds with size `0.001`. -/
theorem slicer_escalation_schedule (minSz base usdt : ℚ) :
    (slice_trace minSz base usdt = [usdt]
      ∨ slice_trace minSz base usdt = [usdt, usdt * (5 / 4) ^ 2]
      ∨ slice_trace minSz base usdt =
          [usdt, usdt * (5 / 4) ^ 2, usdt * (5 / 4) ^ 3]
      ∨ slice_trace minSz base usdt =
          [usdt, usdt * (5 / 4) ^ 2, usdt * (5 / 4) ^ 3, usdt * (5 / 4) ^ 4])
    ∧ slice_trace (1 / 1000) 2000 (3 / 2) = [3 / 2, 3 / 2 * (5 / 4) ^ 2]
    ∧ order_amount (1 / 1000) 2000 (3 / 2) = 1 / 1000 := by
  refine ⟨?_, by norm_num [slice_trace, slice_tr, round_like],
    by norm_num [order_amount, slice_amt, round_like]⟩
  simp only [slice_trace, slice_tr]
  split_ifs <;> simp

/-!
## Claim C4 — size compliance of the slicer

`place_incremental_orders` rounds the size onto multiples of
`min_order_size` (the first argument of every `round_like` call at lines
265/269 is `min_order_size`); the `size_precision` field fetched from
`exchange_limits` is never consulted when sizing.
-/

theorem round_like_zero_or_ge (step x : ℚ) (hs : 0 < step) (hx : 0 ≤ x) :
    round_like step x = 0
    ∨ (IsStepMultiple (round_like step x) step ∧ step ≤ round_like step x) := by
  have hk : (0 : ℤ) ≤ ⌊x / step⌋ := Int.floor_nonneg.mpr (div_nonneg hx hs.le)
  rcases eq_or_lt_of_le hk with h0 | hpos
  · left
    rw [round_like, ← h0]
    norm_num
  · right
    refine ⟨⟨⌊x / step⌋, rfl⟩, ?_⟩
    have h1 : (1 : ℚ) ≤ (⌊x / step⌋ : ℚ) := by exact_mod_cast hpos
    calc step = 1 * step := (one_mul step).symm
      _ ≤ (⌊x / step⌋ : ℚ) * step := mul_le_mul_of_nonneg_right h1 hs.le

theorem slice_amt_zero_or_ge (minSz base usdt : ℚ) (hmin : 0 < minSz)
    (hbase : 0 < base) (hu : 0 < usdt) :
    ∀ fuel add amt, (amt = 0 ∨ (IsStepMultiple amt minSz ∧ minSz ≤ amt)) →
      (slice_amt minSz base usdt fuel add amt = 0
        ∨ (IsStepMultiple (slice_amt minSz base usdt fuel add amt) minSz
            ∧ minSz ≤ slice_amt minSz base usdt fuel add amt)) := by
  intro fuel
  induction fuel with
  | zero => intro add amt h; simpa [slice_amt] using h
  | succ n ih =>
    intro add amt h
    rw [slice_amt]
    split_ifs with hcond
    · refine ih (add + 1) _ (round_like_zero_or_ge _ _ hmin ?_)
      positivity
    · exact h

theorem order_amount_zero_or_ge (minSz base usdt : ℚ) (hmin : 0 < minSz)
    (hbase : 0 < base) (hu : 0 < usdt) :
    order_amount minSz base usdt = 0
    ∨ (IsStepMultiple (order_amount minSz base usdt) minSz
        ∧ minSz ≤ order_amount minSz base usdt) := by
  refine slice_amt_zero_or_ge minSz base usdt hmin hbase hu 3 1 _
    (round_like_zero_or_ge _ _ hmin ?_)
  positivity

/-- C4 counterexample: with `size_precision = 0.002`, `min_order_size =
0.003`, `contract_value = 1`, quote `1000` and notional `3`, the call
succeeds (no `NotionalTooSmall`) and places a market order of size `0.003`,
which is NOT an exact multiple of the market spec's size step `0.002`. -/
theorem placed_size_not_sizeStep_multiple :
    place_incremental_orders
        ⟨some ⟨1 / 500, 1 / 100, 3 / 1000, 1⟩, some 1000, fun _ => (some "9", none)⟩
        3 Side.buy false none
      = (EngineOutcome.ret (some []) none, [⟨Side.buy, OrdType.market, 3 / 1000, none⟩])
    ∧ ¬ IsStepMultiple (3 / 1000) (1 / 500) := by
  have hamt : order_amount (3 / 1000) (1000 * 1) 3 = 3 / 1000 := by
    norm_num [order_amount, slice_amt, round_like]
  constructor
  · simp only [place_incremental_orders, truthyQ, hamt]
    norm_num
  · rintro ⟨k, hk⟩
    have hk2 : (k : ℚ) = 3 / 2 := by
      field_simp at hk
      linarith
    have h3 : ((2 * k : ℤ) : ℚ) = 3 := by push_cast; linarith
    have h4 : (2 * k : ℤ) = 3 := by exact_mod_cast h3
    omega

/-- C4 (amended): for every positive `(notional, spec)` input (with a
positive quote and contract multiplier), `placeNotional` either fails with
`NotionalTooSmall` or every order it places has a size that is an exact
multiple of `spec.minOrderSize` and at least `spec.minOrderSize`.  The size
is a multiple of the *minimum order size*, not of `spec.sizeStep`: the
sizing code never reads `size_precision`. -/
theorem placeNotional_size_minOrder_compliance (lim : ExLimits)
    (place : PlaceReq → Option String × Option String)
    (usdt q : ℚ) (dir : Side) (soft0 : Bool) (price0 : Option ℚ)
    (hmin : 0 < lim.min_order_size) (hbase : 0 < q * lim.contract_value)
    (hu : 0 < usdt) :
    (place_incremental_orders ⟨some lim, some q, place⟩ usdt dir soft0 price0).1
        = EngineOutcome.ret none (some EngineErr.notionalTooSmall)
    ∨ ∀ req ∈ (place_incremental_orders ⟨some lim, some q, place⟩ usdt dir soft0 price0).2,
        IsStepMultiple req.amount lim.min_order_size
        ∧ lim.min_order_size ≤ req.amount := by
  rcases order_amount_zero_or_ge lim.min_order_size (q * lim.contract_value) usdt
      hmin hbase hu with h0 | ⟨hm, hge⟩
  · left
    simp [place_incremental_orders, h0]
  · right
    intro req hreq
    have hpos : 0 < order_amount lim.min_order_size (q * lim.contract_value) usdt :=
      lt_of_lt_of_le hmin hge
    have hne : order_amount lim.min_order_size (q * lim.contract_value) usdt ≠ 0 :=
      ne_of_gt hpos
    have hnlt : ¬ order_amount lim.min_order_size (q * lim.contract_value) usdt < 0 :=
      not_lt.mpr hpos.le
    simp only [place_incremental_orders, hne, hnlt, if_false, if_neg hnlt] at hreq
    split at hreq
    · simp only [List.mem_singleton] at hreq
      subst hreq
      exact ⟨hm, hge⟩
    · simp only [List.mem_singleton] at hreq
      subst hreq
      exact ⟨hm, hge⟩

/-- C4 witness: the amended theorem applied at Scenario A-like concrete
inputs. -/
theorem placeNotional_size_minOrder_compliance_witness :
    (0 : ℚ) < 1 / 1000 ∧ (0 : ℚ) < 2000 * 1 ∧ (0 : ℚ) < 3
    ∧ ((place_incremental_orders
          ⟨some ⟨1 / 1000, 1 / 100, 1 / 1000, 1⟩, some 2000,
           fun _ => (some "1", none)⟩ 3 Side.buy false none).1
            = EngineOutcome.ret none (some EngineErr.notionalTooSmall)
        ∨ ∀ req ∈ (place_incremental_orders
            ⟨some ⟨1 / 1000, 1 / 100, 1 / 1000, 1⟩, some 2000,
             fun _ => (some "1", none)⟩ 3 Side.buy false none).2,
            IsStepMultiple req.amount (1 / 1000) ∧ (1 : ℚ) / 1000 ≤ req.amount) :=
  ⟨by norm_num, by norm_num, by norm_num,
   placeNotional_size_minOrder_compliance ⟨1 / 1000, 1 / 100, 1 / 1000, 1⟩
     (fun _ => (some "1", none)) 3 2000 Side.buy false none
     (by norm_num) (by norm_num) (by norm_num)⟩

/-!
## Claim C2 — soft limit price

In `place_incremental_orders` the parameter `price` is reassigned to the live
quote (`price = exchange.get_price_now(coin)`, line 257) before the soft
branch tests `if price:`.  Consequently the test is true whenever the quote is
nonzero, the `quote × 0.9999` / `quote × 1.0001` offsets are dead code, and a
caller-supplied limit price is discarded.
-/

/-- C2: on a soft buy with **no** explicit limit price (`price=None`),
quote `2000` and price step `0.01`, the limit order sent to the venue
carries price `2000` — the quote rounded to price precision — and not
`2000 × 0.9999 = 1999.8` as the spec claims; moreover supplying an explicit
limit price `1990` changes nothing (the parameter is shadowed before use). -/
theorem soft_buy_limit_price_is_raw_quote :
    (place_incremental_orders
        ⟨some ⟨1 / 1000, 1 / 100, 1 / 1000, 1⟩, some 2000, fun _ => (some "7", none)⟩
        3 Side.buy true none).2
      = [⟨Side.buy, OrdType.limit, 1 / 1000, some 2000⟩]
    ∧ round_like (1 / 100) (2000 * (9999 / 10000)) = 9999 / 5
    ∧ (2000 : ℚ) ≠ 9999 / 5
    ∧ (place_incremental_orders
        ⟨some ⟨1 / 1000, 1 / 100, 1 / 1000, 1⟩, some 2000, fun _ => (some "7", none)⟩
        3 Side.buy false (some 1990)).2
      = [⟨Side.buy, OrdType.limit, 1 / 1000, some 2000⟩] := by
  have hamt : order_amount (1 / 1000) (2000 * 1) 3 = 1 / 1000 := by
    norm_num [order_amount, slice_amt, round_like]
  refine ⟨?_, by norm_num [round_like], by norm_num, ?_⟩
  · simp only [place_incremental_orders, truthyQ, hamt, soft_req, soft_limit_price]
    norm_num [round_like]
  · simp only [place_incremental_orders, truthyQ, hamt, soft_req, soft_limit_price]
    norm_num [round_like]

/-!
## Claim C3 — venue rejection is not propagated

When `place_order` returns `(None, err)` (venue rejection), the code prints
and records the failure but then falls through to the common return: the
non-soft path returns `([], None)` and the soft path returns the (empty)
soft-order list with `None` error — exactly what a successful call returns.
-/

/-- C3 counterexample: with a driver that rejects every placement, a non-soft
`placeNotional` call returns `([], None)` — the very same value returned when
the driver accepts the order — so the error component is `None` and the
caller cannot branch on an error. -/
theorem venue_rejection_swallowed :
    place_incremental_orders
        ⟨some ⟨1 / 1000, 1 / 100, 1 / 1000, 1⟩, some 2000,
         fun _ => (none, some "VenueRejected")⟩ 3 Side.buy false none
      = (EngineOutcome.ret (some []) none, [⟨Side.buy, OrdType.market, 1 / 1000, none⟩])
    ∧ place_incremental_orders
        ⟨some ⟨1 / 1000, 1 / 100, 1 / 1000, 1⟩, some 2000,
         fun _ => (some "1", none)⟩ 3 Side.buy false none
      = (EngineOutcome.ret (some []) none, [⟨Side.buy, OrdType.market, 1 / 1000, none⟩]) := by
  have hamt : order_amount (1 / 1000) (2000 * 1) 3 = 1 / 1000 := by
    norm_num [order_amount, slice_amt, round_like]
  constructor
  · simp only [place_incremental_orders, truthyQ, hamt]
    norm_num
  · simp only [place_incremental_orders, truthyQ, hamt]
    norm_num

/-- C3 (amended): whenever the venue driver rejects the placement (returns no
order id), `placeNotional` records the failure and returns the empty order
list with `None` in the error component, for both the soft and the non-soft
path; rejection is therefore not distinguishable from success by branching on
the returned error. -/
theorem venue_rejection_returns_empty_ok (lim : ExLimits) (q usdt : ℚ) (dir : Side)
    (place : PlaceReq → Option String × Option String) (soft0 : Bool)
    (hamt : 0 < order_amount lim.min_order_size (q * lim.contract_value) usdt)
    (hreject : ∀ req, (place req).1 = none) :
    (place_incremental_orders ⟨some lim, some q, place⟩ usdt dir soft0 none).1
      = EngineOutcome.ret (some []) none := by
  have hne : order_amount lim.min_order_size (q * lim.contract_value) usdt ≠ 0 :=
    ne_of_gt hamt
  have hnlt : ¬ order_amount lim.min_order_size (q * lim.contract_value) usdt < 0 :=
    not_lt.mpr hamt.le
  simp only [place_incremental_orders, hne, hnlt, if_false, if_neg hnlt, truthyQ,
    Bool.or_false]
  split
  · simp [soft_list, hreject]
  · rfl

/-- C3 witness: the amended theorem applied to a concrete rejecting driver. -/
theorem venue_rejection_returns_empty_ok_witness :
    (0 : ℚ) < order_amount (1 / 1000) (2000 * 1) 3
    ∧ (place_incremental_orders
        ⟨some ⟨1 / 1000, 1 / 100, 1 / 1000, 1⟩, some 2000,
         fun _ => (none, some "VenueRejected")⟩ 3 Side.sell true none).1
      = EngineOutcome.ret (some []) none :=
  ⟨by norm_num [order_amount, slice_amt, round_like],
   venue_rejection_returns_empty_ok ⟨1 / 1000, 1 / 100, 1 / 1000, 1⟩ 2000 3 Side.sell
     (fun _ => (none, some "VenueRejected")) true
     (by norm_num [order_amount, slice_amt, round_like]) (fun _ => rfl)⟩

/-!
## `BinanceDriver.amend_order` (driver_ccxt.py lines 539-606)

Binance has no native amendment here: amend is lookup → cancel → place, the
new order inheriting every field not explicitly overridden.  The status
lookup, the cancellation and the placement are oracle inputs.  Field-chain
reads such as `_get(o, ['origQty','quantity','size','qty'])` (first non-None
among alternative spellings) are collapsed to a single optional field.
-/

/-- Lower-casing of an ASCII letter, mirroring Python's `str.lower()` on the
alphabetic order-field values that occur here. -/
def lowerChar (c : Char) : Char :=
  if 65 ≤ c.toNat ∧ c.toNat ≤ 90 then Char.ofNat (c.toNat + 32) else c

/-- Python `s.lower()` (ASCII). -/
def pyLower (s : String) : String :=
  String.mk (s.data.map lowerChar)

/-- Side normalisation in `BinanceDriver.place_order`:
`"buy" if str(side).lower() in ("buy","bid","long") else "sell"`. -/
def normSide (s : String) : Side :=
  if pyLower s = "buy" ∨ pyLower s = "bid" ∨ pyLower s = "long" then Side.buy
  else Side.sell

/-- Type normalisation in `BinanceDriver.place_order`:
`"limit" if str(order_type).lower() in ("limit",) else "market"`. -/
def normType (t : String) : OrdType :=
  if pyLower t = "limit" then OrdType.limit else OrdType.market

/-- Python `x if x is not None else y` on optionals. -/
def pyOr {α : Type} (newv old : Option α) : Option α :=
  match newv with
  | some v => some v
  | none => old

/-- The raw existing-order record `amend_order` reads back through
`get_order_status(..., keep_origin=True)`. -/
structure RawOrder where
  orderId : Option String
  side : Option String
  otype : Option String
  origQty : Option ℚ
  price : Option ℚ
deriving DecidableEq

/-- Errors an `amend_order` call can carry in its second component.
`staleOrder` is the error the spec prescribes for an already-gone target; the
implementation never produces it. -/
inductive AmendErr where
  | valueErr (msg : String)
  | cancelFailed (msg : Option String)
  | placeErr (msg : String)
  | staleOrder
deriving DecidableEq

/-- Oracle for one `amend_order` call: the status lookup's `(order, err)`
pair, the cancellation's `(ok, err)` pair, and the placement behaviour. -/
structure AmendEnv where
  lookup : Option RawOrder × Option String
  cancel : Bool × Option String
  place : PlaceReq → Option String × Option String

/-- `BinanceDriver.amend_order(order_id, symbol, price, size, side,
order_type)`.  Returns the `(new_order_id, err)` pair plus the list of
`place_order` requests issued. -/
def amend_order (env : AmendEnv) (order_id symbol : Option String)
    (price size : Option ℚ) (side otype : Option String) :
    (Option String × Option AmendErr) × List PlaceReq :=
  if truthyStr order_id = false then
    ((none, some (AmendErr.valueErr "order_id is required")), [])
  else if truthyStr symbol = false then
    ((none, some (AmendErr.valueErr "symbol is required")), [])
  else
    match env.lookup with
    | (some od, none) =>
      if od.orderId = order_id then
        match env.cancel with
        | (false, cerr) => ((none, some (AmendErr.cancelFailed cerr)), [])
        | (true, _) =>
          let new_side := pyOr side od.side
          let new_type0 := pyOr otype od.otype
          let new_qty := pyOr size od.origQty
          let new_price := pyOr price od.price
          if truthyStr new_side = false then
            ((none, some (AmendErr.valueErr "side not provided and cannot infer from existing order")), [])
          else
            let new_type :=
              if truthyStr new_type0 then new_type0.getD ""
              else if new_price.isSome then "LIMIT" else "MARKET"
            if truthyQ new_qty = false then
              ((none, some (AmendErr.valueErr "size not provided and cannot infer from existing order")), [])
            else
              let req : PlaceReq :=
                ⟨normSide (new_side.getD ""), normType new_type, new_qty.getD 0, new_price⟩
              (((env.place req).1, (env.place req).2.map AmendErr.placeErr), [req])
      else ((none, none), [])
    | (_, _) => ((none, none), [])

/-!
## Claim C7 — amending an already-gone order
-/

/-- C7 counterexample: when the status lookup finds no order (`(None, None)`),
`amend_order` returns `(None, None)` — it places no new order, but the error
component is `None`, not a `StaleOrder` error, so nothing signals staleness
to the caller. -/
theorem amend_gone_order_yields_none_none :
    amend_order ⟨(none, none), (true, none), fun _ => (some "new", none)⟩
        (some "42") (some "ETH/USDT:USDT") none none none none
      = ((none, none), [])
    ∧ (((none : Option String), (none : Option AmendErr)), ([] : List PlaceReq)).1.2
        ≠ some AmendErr.staleOrder := by
  constructor
  · rfl
  · decide

/-- C7 (amended): for every `amend_order` call whose target order is already
gone — the status lookup fails, returns no order, or returns an order whose
id does not match — the call places no new order and returns `(None, None)`:
a null result with a `None` error component rather than a `StaleOrder`
error. -/
theorem amend_stale_returns_null (env : AmendEnv) (order_id symbol : Option String)
    (price size : Option ℚ) (side otype : Option String)
    (hid : truthyStr order_id = true) (hsym : truthyStr symbol = true)
    (hstale : ∀ od : RawOrder, env.lookup.1 = some od → env.lookup.2 = none →
      od.orderId ≠ order_id) :
    amend_order env order_id symbol price size side otype = ((none, none), []) := by
  rw [amend_order, hid, hsym]
  simp only [Bool.true_eq_false, if_false]
  rcases hlk : env.lookup with ⟨od?, oerr⟩
  rcases od? with _ | od
  · rfl
  · rcases oerr with _ | e
    · have hne : od.orderId ≠ order_id := by
        refine hstale od ?_ ?_ <;> rw [hlk]
      simp only [if_neg hne]
    · rfl

/-- C7 witness: the amended theorem applied to a lookup that errors out. -/
theorem amend_stale_returns_null_witness :
    truthyStr (some "42") = true ∧ truthyStr (some "ETH/USDT:USDT") = true
    ∧ amend_order ⟨(none, some "fetch_order failed"), (true, none), fun _ => (some "new", none)⟩
        (some "42") (some "ETH/USDT:USDT") none none none none
      = ((none, none), []) :=
  ⟨by decide, by decide,
   amend_stale_returns_null
     ⟨(none, some "fetch_order failed"), (true, none), fun _ => (some "new", none)⟩
     (some "42") (some "ETH/USDT:USDT") none none none none
     (by decide) (by decide) (by intro od h; simp at h)⟩

/-!
## Claim C8 — amend with no overrides preserves side/type/size/price
-/

/-- C8: for an existing open order (matching id, side `buy`/`sell`, type
`limit`, nonzero size, a price) whose cancellation succeeds, `amend_order`
with no overriding fields (`price=None, size=None, side=None,
order_type=None`) issues exactly one replacement placement whose side, type,
size and price are those of the pre-amend order; the result is whatever
order id the venue assigns to that replacement. -/
theorem amend_no_override_preserves_fields (cancelMsg : Option String)
    (place : PlaceReq → Option String × Option String)
    (oid sym sd ot : String) (q p : ℚ)
    (hid : truthyStr (some oid) = true) (hsym : truthyStr (some sym) = true)
    (hq : q ≠ 0) (hsd : sd = "buy" ∨ sd = "sell") (hot : ot = "limit") :
    amend_order
        ⟨(some ⟨some oid, some sd, some ot, some q, some p⟩, none),
         (true, cancelMsg), place⟩
        (some oid) (some sym) none none none none
      = (((place ⟨normSide sd, OrdType.limit, q, some p⟩).1,
          (place ⟨normSide sd, OrdType.limit, q, some p⟩).2.map AmendErr.placeErr),
         [⟨normSide sd, OrdType.limit, q, some p⟩])
    ∧ (sd = "buy" → normSide sd = Side.buy)
    ∧ (sd = "sell" → normSide sd = Side.sell) := by
  have hqt : truthyQ (some q) = true := by simp [truthyQ, hq]
  have hbuy : truthyStr (some "buy") = true := by decide
  have hsell : truthyStr (some "sell") = true := by decide
  have hlim : truthyStr (some "limit") = true := by decide
  have hnt : normType "limit" = OrdType.limit := by decide
  subst hot
  rcases hsd with h | h <;> subst h
  · refine ⟨?_, fun _ => by decide, fun hh => absurd hh (by decide)⟩
    rw [amend_order, hid, hsym]
    simp only [Bool.true_eq_false, if_false, pyOr]
    simp [hqt, hbuy, hlim, hnt]
  · refine ⟨?_, fun hh => absurd hh (by decide), fun _ => by decide⟩
    rw [amend_order, hid, hsym]
    simp only [Bool.true_eq_false, if_false, pyOr]
    simp [hqt, hsell, hlim, hnt]

/-- C8 witness: the theorem applied to a concrete open `buy`/`limit` order of
size 2 at price 100, on a venue that assigns id "43" to the replacement. -/
theorem amend_no_override_preserves_fields_witness :
    truthyStr (some "42") = true ∧ truthyStr (some "ETH/USDT:USDT") = true
    ∧ (2 : ℚ) ≠ 0 ∧ (("buy" : String) = "buy" ∨ ("buy" : String) = "sell")
    ∧ (("limit" : String) = "limit")
    ∧ (amend_order
          ⟨(some ⟨some "42", some "buy", some "limit", some 2, some 100⟩, none),
           (true, none), fun _ => (some "43", none)⟩
          (some "42") (some "ETH/USDT:USDT") none none none none
        = (((some "43" : Option String), (none : Option AmendErr)),
           [(⟨normSide "buy", OrdType.limit, 2, some 100⟩ : PlaceReq)])
      ∧ (("buy" : String) = "buy" → normSide "buy" = Side.buy)
      ∧ (("buy" : String) = "sell" → normSide "buy" = Side.sell)) :=
  ⟨by decide, by decide, by norm_num, Or.inl rfl, rfl,
   amend_no_override_preserves_fields none (fun _ => (some "43", none))
     "42" "ETH/USDT:USDT" "buy" "limit" 2 100
     (by decide) (by decide) (by norm_num) (Or.inl rfl) rfl⟩

/-!
## `BinanceDriver.cancel_all` (driver_ccxt.py lines 806-847)

Only the `order_ids` branch (lines 818-823) is modelled exactly; the two
fallback branches (native `cancel_all_orders`, manual open-order sweep) are
collapsed into one oracle value, which is what the function returns whenever
`order_ids` is falsy.
-/

/-- The per-order-id entry appended by the `order_ids` loop:
`results.append(res if err is None else err)` — the boolean result on
success, the error object on failure. -/
def cancel_entry (revoke : String → Bool × Option String) (oid : String) :
    Bool ⊕ String :=
  match revoke oid with
  | (res, none) => Sum.inl res
  | (_, some e) => Sum.inr e

/-- `BinanceDriver.cancel_all(symbol, instType, order_ids)`.  `available`
models `self.binance` being non-null; `fallback` is the outcome of the
non-`order_ids` branches. -/
def cancel_all (available : Bool) (revoke : String → Bool × Option String)
    (fallback : Option (List (Bool ⊕ String)) × Option String)
    (order_ids : Option (List String)) :
    Option (List (Bool ⊕ String)) × Option String :=
  if available = false then (none, some "Account client not available")
  else
    match order_ids with
    | some ids =>
      if ids.isEmpty then fallback
      else (some (ids.map (cancel_entry revoke)), none)
    | none => fallback

/-- C10: on an initialised driver, `cancel_all` with a non-empty `order_ids`
list returns a `None` error component together with exactly one entry per
requested id, each entry determined solely by that id's own `revoke_order`
outcome (success boolean, or the failure's error object) — so one failing
cancellation never aborts the remaining ones. -/
theorem cancel_all_ids_one_entry_per_id (revoke : String → Bool × Option String)
    (fallback : Option (List (Bool ⊕ String)) × Option String)
    (ids : List String) (hne : ids ≠ []) :
    cancel_all true revoke fallback (some ids)
      = (some (ids.map (cancel_entry revoke)), none)
    ∧ (ids.map (cancel_entry revoke)).length = ids.length := by
  have hemp : ids.isEmpty = false := by
    cases ids with
    | nil => exact absurd rfl hne
    | cons a l => rfl
  constructor
  · rw [cancel_all]
    simp [hemp]
  · exact List.length_map ids (cancel_entry revoke)

/-- C10 witness: two ids, the first failing to cancel, the second succeeding;
both entries are present and the error component is `None`. -/
theorem cancel_all_ids_one_entry_per_id_witness :
    (["7", "8"] : List String) ≠ []
    ∧ (cancel_all true
        (fun oid => if oid = "7" then (false, some "cancel failed") else (true, none))
        (none, none) (some ["7", "8"])
      = (some [Sum.inr "cancel failed", Sum.inl true], none)
      ∧ ((["7", "8"] : List String).map (cancel_entry
          (fun oid => if oid = "7" then (false, some "cancel failed") else (true, none)))).length
        = (["7", "8"] : List String).length) := by
  refine ⟨by decide, ?_⟩
  have h := cancel_all_ids_one_entry_per_id
    (fun oid => if oid = "7" then (false, some "cancel failed") else (true, none))
    (none, none) ["7", "8"] (by decide)
  refine ⟨?_, h.2⟩
  rw [h.1]
  decide

/-!
## Price-Chasing Tracker termination (`_order_tracking_logic`,
ExecutionEngine.py lines 217-222)

When the loop exits (`not need_to_watch or time.time() - start_time > 10800`)
the code prints a fixed completion message, removes the batch's order ids
from `self.soft_orders_to_focus` and pops a watch thread — and nothing else:
no driver call is made.  `TrackAction` can express a cancellation request or
a per-ticket abandonment report so that the claim is statable; the
implementation emits neither.
-/

/-- An action the tracking loop's exit path could perform. -/
inductive TrackAction where
  | consoleLog (msg : String)
  | cancelReq (oid : String)
  | abandonReport (oid : String)
deriving DecidableEq

/-- The exit path of `_order_tracking_logic`: new
`(soft_orders_to_focus, watch_threads)` state plus the actions performed.
`ntw` is `need_to_watch` (true when the exit was caused by the 10800-second
deadline rather than by the batch draining). -/
def tracking_terminate (focus batch : List String) (threads : ℕ) (ntw : Bool) :
    (List String × ℕ) × List TrackAction :=
  ((focus.filter (fun x => !(batch.contains x)),
    if 1 ≤ threads then threads - 1 else threads),
   [TrackAction.consoleLog (if ntw then "到点了" else "所有订单都搞定了")])

/-- C6 counterexample: a deadline exit (`ntw = true`) with one still-open
tracked ticket `"o1"` performs only the constant console log: no cancellation
is attempted for `"o1"` and no abandonment report names it, yet the ticket is
dropped from the tracking focus list (released silently while still open). -/
theorem deadline_exit_ignores_open_ticket :
    tracking_terminate ["o1"] ["o1"] 1 true
      = ((([] : List String), 0), [TrackAction.consoleLog "到点了"])
    ∧ TrackAction.cancelReq "o1" ∉ (tracking_terminate ["o1"] ["o1"] 1 true).2
    ∧ TrackAction.abandonReport "o1" ∉ (tracking_terminate ["o1"] ["o1"] 1 true).2 := by
  refine ⟨by decide, by decide, by decide⟩

/-- C6 (amended): whenever the tracking loop terminates — deadline or batch
drained — it removes the batch's tickets from the tracking focus list,
decrements the thread count and logs a constant completion message; it
attempts no cancellation and reports no ticket as abandoned, so a still-open
ticket is silently left open and untracked. -/
theorem tracking_exit_emits_no_cancel (focus batch : List String) (threads : ℕ)
    (ntw : Bool) :
    (tracking_terminate focus batch threads ntw).1.1
      = focus.filter (fun x => !(batch.contains x))
    ∧ (tracking_terminate focus batch threads ntw).2
      = [TrackAction.consoleLog (if ntw then "到点了" else "所有订单都搞定了")]
    ∧ ∀ oid : String,
        TrackAction.cancelReq oid ∉ (tracking_terminate focus batch threads ntw).2
        ∧ TrackAction.abandonReport oid ∉ (tracking_terminate focus batch threads ntw).2 := by
  refine ⟨rfl, rfl, fun oid => ⟨?_, ?_⟩⟩
  · intro hmem
    simp [tracking_terminate] at hmem
  · intro hmem
    simp [tracking_terminate] at hmem

/-!
## Price-chasing step (`_order_tracking_logic`, ExecutionEngine.py
lines 204-211)

Per ticket and cycle the tracker computes

```
if now_price <= float(data['price']):
    tmp_price = align_decimal_places(now_price, now_price * (1 + 0.0001 * (200 - w) / 200))
    new_price = tmp_price if tmp_price < float(data['price']) else float(data['price'])
else:
    tmp_price = align_decimal_places(now_price, now_price * (1 - 0.0001 * (200 - w) / 200))
    new_price = tmp_price if tmp_price > float(data['price']) else float(data['price'])
```

with `w = watch_times_for_all_coins`, which increments once per loop sweep
without bound; `n` is the decimal-grid exponent of the live quote passed to
`align_decimal_places`.
-/

theorem alignDec_mono (n : ℕ) (x y : ℚ) (h : x ≤ y) : alignDec n x ≤ alignDec n y := by
  have h10 : (0 : ℚ) < 10 ^ n := by positivity
  have hr : round (x * 10 ^ n) ≤ round (y * 10 ^ n) := by
    rw [round_eq, round_eq]
    refine Int.floor_le_floor ?_
    have := mul_le_mul_of_nonneg_right h h10.le
    linarith
  rw [alignDec, alignDec]
  gcongr

theorem alignDec_fixed (n : ℕ) (x : ℚ) (m : ℤ) (hm : x * 10 ^ n = m) :
    alignDec n x = x := by
  have h10 : (0 : ℚ) < 10 ^ n := by positivity
  rw [alignDec, hm, round_intCast, ← hm]
  field_simp

/-- The new price computed for one ticket in one chase cycle. -/
def chase_new_price (n w : ℕ) (now price : ℚ) : ℚ :=
  if now ≤ price then
    if alignDec n (now * (1 + 1 / 10000 * ((200 - (w : ℚ)) / 200))) < price then
      alignDec n (now * (1 + 1 / 10000 * ((200 - (w : ℚ)) / 200)))
    else price
  else
    if alignDec n (now * (1 - 1 / 10000 * ((200 - (w : ℚ)) / 200))) > price then
      alignDec n (now * (1 - 1 / 10000 * ((200 - (w : ℚ)) / 200)))
    else price

/-- C9 counterexample: at global cycle counter `w = 400` (reachable well
inside the 10800-second budget at one 3-second sweep per cycle), a tracked
buy priced at `99.99` under a live quote of `100.00` (two-decimal grid) is
amended to `100.01` — strictly above the live quote, refuting "the price
amended in each cycle never exceeds the live quote observed in that
cycle". -/
theorem chase_price_can_exceed_quote :
    chase_new_price 2 400 100 (9999 / 100) = 10001 / 100
    ∧ (100 : ℚ) < 10001 / 100 := by
  constructor
  · rw [chase_new_price]
    norm_num [alignDec, round_eq]
  · norm_num

/-- C9 (amended): for every chase cycle whose global cycle counter is at most
200, a tracked soft buy whose current price is below the live quote is
amended to a price that is at least its current price (so the successive
prices are monotonically non-decreasing while that bound holds) and at most
the live quote observed in that cycle; for counters above 200 the shrinking
offset turns negative and the amended price can exceed the quote. -/
theorem chase_buy_monotone_and_bounded (n w : ℕ) (m : ℤ) (now price : ℚ)
    (hw : w ≤ 200) (hp : price < now) (h0 : 0 ≤ now)
    (hgrid : now * 10 ^ n = m) :
    price ≤ chase_new_price n w now price ∧ chase_new_price n w now price ≤ now := by
  have hnle : ¬ now ≤ price := not_le.mpr hp
  rw [chase_new_price, if_neg hnle]
  have hwq : (w : ℚ) ≤ 200 := by exact_mod_cast hw
  have heps : 0 ≤ 1 / 10000 * ((200 - (w : ℚ)) / 200) := by
    have h1 : (0 : ℚ) ≤ 200 - (w : ℚ) := by linarith
    have h2 : (0 : ℚ) ≤ (200 - (w : ℚ)) / 200 := by positivity
    positivity
  have harg : now * (1 - 1 / 10000 * ((200 - (w : ℚ)) / 200)) ≤ now := by
    nlinarith [mul_nonneg h0 heps]
  have htmp : alignDec n (now * (1 - 1 / 10000 * ((200 - (w : ℚ)) / 200))) ≤ now := by
    calc alignDec n (now * (1 - 1 / 10000 * ((200 - (w : ℚ)) / 200)))
        ≤ alignDec n now := alignDec_mono n _ _ harg
      _ = now := alignDec_fixed n now m hgrid
  split_ifs with hgt
  · exact ⟨le_of_lt hgt, htmp⟩
  · exact ⟨le_refl price, hp.le⟩

/-- C9 witness: cycle 3 on a two-decimal symbol, quote `100.00`, current buy
price `99.90`. -/
theorem chase_buy_monotone_and_bounded_witness :
    (3 : ℕ) ≤ 200 ∧ (999 : ℚ) / 10 < 100 ∧ (0 : ℚ) ≤ 100
    ∧ (100 : ℚ) * 10 ^ 2 = ((10000 : ℤ) : ℚ)
    ∧ (999 / 10 ≤ chase_new_price 2 3 100 (999 / 10)
        ∧ chase_new_price 2 3 100 (999 / 10) ≤ 100) :=
  ⟨by norm_num, by norm_num, by norm_num, by norm_num,
   chase_buy_monotone_and_bounded 2 3 10000 100 (999 / 10)
     (by norm_num) (by norm_num) (by norm_num) (by norm_num)⟩

/-!
## `AsterClient.place_market_order` (aster.py lines 839-886)

After POSTing the market order the code polls `get_order_info` for up to 10
seconds while the status is not `FILLED`; if the status still is not
`FILLED` it logs an error and calls `sys.exit(1)`.  The poll sequence is the
oracle: the list of `get_order_info` results (`none` = lookup returned
nothing) that complete within the wait budget; an exhausted list models the
10-second timeout.
-/

/-- The `OrderResult` dataclass used by the Aster driver (from its `base`
module; fields as constructed throughout `aster.py`). -/
structure OrderResult where
  success : Bool
  order_id : Option String := none
  res_side : Option String := none
  size : Option ℚ := none
  price : Option ℚ := none
  status : Option String := none
  error_message : Option String := none
deriving DecidableEq

/-- Observable outcome of a driver call that may terminate the process. -/
inductive MarketCallOutcome where
  | returns (r : OrderResult)
  | processExit (code : ℕ)
  | uncaughtError
deriving DecidableEq

/-- The polling loop: starting from the placement response's status, apply
each `get_order_info` result in turn (a `none` lookup leaves the status
unchanged), stopping early once `FILLED` is observed.  Also tracks the last
value assigned to the `order_info` variable (`none` = never assigned). -/
def aster_await_fill (status : String) (last : Option (Option (String × ℚ))) :
    List (Option (String × ℚ)) → String × Option (Option (String × ℚ))
  | [] => (status, last)
  | p :: rest =>
    if status = "FILLED" then (status, last)
    else
      match p with
      | some info => aster_await_fill info.1 (some (some info)) rest
      | none => aster_await_fill status (some none) rest

/-- `AsterClient.place_market_order(contract_id, quantity, direction)`.
`initStatus`/`orderId` come from the POST response; `polls` are the
`get_order_info` results observed within the 10-second budget. -/
def place_market_order (direction : String) (initStatus : String) (orderId : String)
    (quantity : ℚ) (polls : List (Option (String × ℚ))) : MarketCallOutcome :=
  if ¬ (pyLower direction = "buy" ∨ pyLower direction = "sell") then
    MarketCallOutcome.returns
      ⟨false, none, none, none, none, none, some ("Invalid direction: " ++ direction)⟩
  else
    match aster_await_fill initStatus none polls with
    | (st, last) =>
      if st ≠ "FILLED" then MarketCallOutcome.processExit 1
      else
        match last with
        | some (some info) =>
          MarketCallOutcome.returns
            ⟨true, some orderId, some (pyLower direction), some quantity,
             some info.2, some "FILLED", none⟩
        | _ => MarketCallOutcome.uncaughtError

/-- C5: a market buy whose status never reaches `FILLED` within the wait
budget (here: placed as `NEW`, polled twice as `NEW`, then timeout) makes
`place_market_order` terminate the whole process with exit code 1 instead of
returning an error `OrderResult`; the same call whose final poll observes
`FILLED` returns a success result — the failure path alone kills the
process. -/
theorem market_order_timeout_exits_process :
    place_market_order "buy" "NEW" "42" 1 [some ("NEW", 100), some ("NEW", 100)]
      = MarketCallOutcome.processExit 1
    ∧ place_market_order "buy" "NEW" "42" 1 [some ("NEW", 100), some ("FILLED", 100)]
      = MarketCallOutcome.returns
          ⟨true, some "42", some "buy", some 1, some 100, some "FILLED", none⟩ := by
  constructor
  · rfl
  · rfl
